import Mathlib

/-!
Verification of the URL-shortener core (src/apis.js): the expiring
key-value store (urlDatabase / expiryDatabase), code generation and
validation, creation, statistics lookup, resolution and the periodic
cleanup sweep.

Modelling conventions:
- JavaScript `Map` objects are association lists with the first binding
  of a key authoritative; `Map.set` replaces an existing binding in
  place or appends, `Map.delete` removes the key's binding, matching
  the unique-key discipline of `Map`.
- Timestamps (`Date.now()`, `Date` values) are integers (milliseconds).
- A JavaScript function with no `return` statement returns `undefined`;
  where a claim is about a return value this is modelled as `none`.
- The anonymous Express route handlers are named after the operations
  they implement: `create` (POST /shorturls), `getStats`
  (GET /shorturls/:shortcode), `resolve` (GET /:shortcode).
-/

namespace UrlShortener

/-- One value of `urlDatabase`: `urlDatabase.set(finalShortcode,
{ originalUrl: url, createdAt: new Date(), accessCount: 0 })`. -/
structure UrlData where
  originalUrl : String
  createdAt : Int
  accessCount : Nat
deriving DecidableEq, Repr

/-- The two module-level maps of src/apis.js: `const urlDatabase = new
Map()` and `const expiryDatabase = new Map()` (shortcode to expiry
timestamp in milliseconds). -/
structure Store where
  urlDatabase : List (String × UrlData)
  expiryDatabase : List (String × Int)
deriving DecidableEq, Repr

/-- JavaScript `Map.prototype.get`: the value of the first (and, under
`Map` discipline, only) binding of the key, or `undefined` (`none`). -/
def mapGet? {α : Type} (m : List (String × α)) (k : String) : Option α :=
  match m with
  | [] => none
  | (k₁, v) :: rest => if k₁ = k then some v else mapGet? rest k

/-- JavaScript `Map.prototype.has`. -/
def mapHas {α : Type} (m : List (String × α)) (k : String) : Bool :=
  (mapGet? m k).isSome

/-- JavaScript `Map.prototype.set`: replace the existing binding in
place, or append a new one. -/
def mapSet {α : Type} (m : List (String × α)) (k : String) (v : α) :
    List (String × α) :=
  match m with
  | [] => [(k, v)]
  | (k₁, v₁) :: rest =>
    if k₁ = k then (k, v) :: rest else (k₁, v₁) :: mapSet rest k v

/-- JavaScript `Map.prototype.delete` (ignoring its boolean result):
removes the key's binding. -/
def mapDelete {α : Type} (m : List (String × α)) (k : String) :
    List (String × α) :=
  m.filter (fun p => p.1 ≠ k)

/-- Deleting a shortcode from both maps, the shape
`urlDatabase.delete(shortcode); expiryDatabase.delete(shortcode)` that
appears in the cleanup sweep and in both expiry-eviction paths. -/
def storeDelete (s : Store) (c : String) : Store :=
  { urlDatabase := mapDelete s.urlDatabase c,
    expiryDatabase := mapDelete s.expiryDatabase c }

/-- The 62-character alphabet of `generateShortcode`. -/
def chars : List Char :=
  "ABCDEFGHIJKLMNOPQRSTUVWXYZabcdefghijklmnopqrstuvwxyz0123456789".data

/-- `generateShortcode(length = 6)`: one character drawn per loop
iteration. The random draws `Math.floor(Math.random() *
chars.length)` — always an index below 62 — are supplied as `r`. -/
def generateShortcode (r : Nat → Fin 62) (length : Nat := 6) : String :=
  String.mk ((List.range length).map (fun i => chars.getD (r i).val 'A'))

/-- Modelled from the spec: `isValidUrl` in the source calls the
platform URL constructor (`new URL(string)`), which is not repository
code, and accepts exactly the strings that parse as absolute URLs with
protocol `http:` or `https:`. Approximated as: the scheme prefix
followed by a nonempty remainder. The claims below never depend on the
parser's edge cases. -/
def isValidUrl (s : String) : Bool :=
  ("http://".data.isPrefixOf s.data && decide (7 < s.length)) ||
    ("https://".data.isPrefixOf s.data && decide (8 < s.length))

/-- The character class of the regex `[a-zA-Z0-9]`. -/
def isAlphanumChar (ch : Char) : Bool :=
  (decide ('a' ≤ ch) && decide (ch ≤ 'z')) ||
    (decide ('A' ≤ ch) && decide (ch ≤ 'Z')) ||
    (decide ('0' ≤ ch) && decide (ch ≤ '9'))

/-- `isValidShortcode`: `/^[a-zA-Z0-9]+$/.test(shortcode) &&
shortcode.length >= 3 && shortcode.length <= 20`; the anchored regex
with `+` matches exactly the nonempty all-alphanumeric strings. -/
def isValidShortcode (c : String) : Bool :=
  (decide (0 < c.length) && c.data.all isAlphanumChar) &&
    decide (3 ≤ c.length) && decide (c.length ≤ 20)

/-- `isExpired`: `expiryDatabase.get` yielding `undefined` counts as
expired (`if (!expiryTime) return true`), otherwise expired iff the
current time is strictly past the stored expiry. -/
def isExpired (s : Store) (now : Int) (c : String) : Bool :=
  match mapGet? s.expiryDatabase c with
  | none => true
  | some e => decide (now > e)

/-- One iteration of the loop body of `cleanupExpiredUrls`: an entry
strictly past its expiry is deleted from both maps. -/
def cleanupStep (now : Int) (acc : Store) (p : String × Int) : Store :=
  if now > p.2 then storeDelete acc p.1 else acc

/-- `cleanupExpiredUrls`: iterates over the entries of
`expiryDatabase`, deleting every expired shortcode from both maps. The
JavaScript function has no `return` statement, so its value is
`undefined`, modelled as the `none` in the second component. -/
def cleanupExpiredUrls (s : Store) (now : Int) : Store × Option Nat :=
  (s.expiryDatabase.foldl (cleanupStep now) s, none)

/-- Error outcomes of the POST /shorturls handler, one per early
`return res.status(...)` branch. -/
inductive CreateError where
  | missingUrl
  | invalidUrl
  | invalidValidity
  | invalidCodeFormat
  | codeConflict
deriving DecidableEq, Repr

/-- Outcome of the POST /shorturls handler. `noFreshCode` marks the
generate-retry `do ... while` loop running out of the supplied
candidate stream (the loop itself is unbounded). -/
inductive CreateResult where
  | ok (s : Store) (code : String) (expiry : Int)
  | err (e : CreateError)
  | noFreshCode
deriving DecidableEq, Repr

/-- The `do { finalShortcode = generateShortcode() } while
(urlDatabase.has(finalShortcode))` loop: the first candidate not
already bound in `urlDatabase`. -/
def pickFresh (s : Store) : List String → Option String
  | [] => none
  | c :: cs => if mapHas s.urlDatabase c then pickFresh s cs else some c

/-- The tail of the create handler once `finalShortcode` is fixed:
`expiryTime = new Date(Date.now() + validity * 60 * 1000)`, then both
maps are set and the handler responds 201 with the expiry. -/
def createInsert (s : Store) (now : Int) (u : String) (validity : Int)
    (c : String) : CreateResult :=
  .ok { urlDatabase := mapSet s.urlDatabase c
          { originalUrl := u, createdAt := now, accessCount := 0 },
        expiryDatabase := mapSet s.expiryDatabase c
          (now + validity * 60 * 1000) }
    c (now + validity * 60 * 1000)

/-- The POST /shorturls handler. `url` and `shortcode` are optional
request fields; JavaScript truthiness makes a missing or empty `url`
hit `if (!url)` and a missing or empty `shortcode` take the generated
path (`if (shortcode)`). `validity` is an integer by type, so of the
check `!Number.isInteger(validity) || validity <= 0` the `<= 0` half
remains. The generated path draws candidates from `cands`. -/
def create (s : Store) (now : Int) (url : Option String)
    (validity : Int := 30) (requestedCode : Option String := none)
    (cands : List String := []) : CreateResult :=
  if url.getD "" = "" then .err .missingUrl
  else if !isValidUrl (url.getD "") then .err .invalidUrl
  else if validity ≤ 0 then .err .invalidValidity
  else if requestedCode.getD "" ≠ "" then
    if !isValidShortcode (requestedCode.getD "") then
      .err .invalidCodeFormat
    else if mapHas s.urlDatabase (requestedCode.getD "") then
      .err .codeConflict
    else createInsert s now (url.getD "") validity (requestedCode.getD "")
  else
    match pickFresh s cands with
    | some c => createInsert s now (url.getD "") validity c
    | none => .noFreshCode

/-- Error outcomes of the two GET handlers. `routeNotFound` is the
reserved-name branch of GET /:shortcode (message "Route not found"),
`notFound` the missing-shortcode branch (message "Shortcode not
found"), `expired` the 410 branch. -/
inductive ApiError where
  | routeNotFound
  | notFound
  | expired
deriving DecidableEq, Repr

/-- The HTTP status each error branch responds with. -/
def httpStatus : ApiError → Nat
  | .routeNotFound => 404
  | .notFound => 404
  | .expired => 410

/-- Result of a GET handler, alongside the store it leaves behind. -/
inductive Res (α : Type) where
  | ok (a : α)
  | error (e : ApiError)
deriving DecidableEq, Repr

/-- The JSON body of a successful GET /shorturls/:shortcode response.
`expiry` is `expiryDatabase.get(shortcode)`, kept as an `Option` since
JavaScript would serialize `undefined` if the maps ever disagreed. -/
structure Stats where
  shortcode : String
  originalUrl : String
  createdAt : Int
  expiry : Option Int
  accessCount : Nat
deriving DecidableEq, Repr

/-- The GET /shorturls/:shortcode handler: 404 when `urlDatabase` has
no binding, 410 with eviction from both maps when expired, otherwise
the entry's fields. The source's `urlDatabase.has` guard and later
`urlDatabase.get` are fused into one match (`has` is exactly `get`
being defined). -/
def getStats (s : Store) (now : Int) (c : String) : Store × Res Stats :=
  match mapGet? s.urlDatabase c with
  | none => (s, .error .notFound)
  | some d =>
    if isExpired s now c then (storeDelete s c, .error .expired)
    else
      (s, .ok { shortcode := c, originalUrl := d.originalUrl,
                createdAt := d.createdAt,
                expiry := mapGet? s.expiryDatabase c,
                accessCount := d.accessCount })

/-- The GET /:shortcode handler: the reserved route names are rejected
first, then 404 / 410-with-eviction as in `getStats`; on success
`accessCount` is incremented, the entry written back with
`urlDatabase.set`, and the redirect target is the stored
`originalUrl`. -/
def resolve (s : Store) (now : Int) (c : String) : Store × Res String :=
  if c = "shorturls" ∨ c = "health" then (s, .error .routeNotFound)
  else
    match mapGet? s.urlDatabase c with
    | none => (s, .error .notFound)
    | some d =>
      if isExpired s now c then (storeDelete s c, .error .expired)
      else
        let d₁ := { d with accessCount := d.accessCount + 1 }
        ({ s with urlDatabase := mapSet s.urlDatabase c d₁ },
          .ok d.originalUrl)

/-- `n` sequential calls of the GET /:shortcode handler, threading the
store. -/
def resolveN (s : Store) (now : Int) (c : String) : Nat → Store
  | 0 => s
  | n + 1 => (resolve (resolveN s now c n) now c).1

/-- The invariant that `urlDatabase` and `expiryDatabase` bind exactly
the same shortcodes. -/
def sameKeys (s : Store) : Prop :=
  ∀ c, mapHas s.urlDatabase c = mapHas s.expiryDatabase c

/-- A store holding a single entry under code "abc" that expires at
time 100. -/
def oneEntryStore : Store :=
  { urlDatabase := [("abc", ⟨"http://example.com/a", 0, 0⟩)],
    expiryDatabase := [("abc", 100)] }

/-- A store holding a single entry under the reserved code "shorturls",
expiring at time 100. -/
def reservedStore : Store :=
  { urlDatabase := [("shorturls", ⟨"http://example.com/a", 0, 0⟩)],
    expiryDatabase := [("shorturls", 100)] }

/-- A store holding a single entry under the reserved code "health",
expiring at time 100. -/
def healthStore : Store :=
  { urlDatabase := [("health", ⟨"http://example.com/h", 0, 0⟩)],
    expiryDatabase := [("health", 100)] }

theorem mapGet?_set {α : Type} (m : List (String × α)) (k k' : String)
    (v : α) :
    mapGet? (mapSet m k v) k' = if k = k' then some v else mapGet? m k' := by
  induction m with
  | nil => simp [mapSet, mapGet?]
  | cons p rest ih =>
    obtain ⟨k₁, v₁⟩ := p
    by_cases h₁ : k₁ = k
    · subst h₁
      by_cases h₂ : k₁ = k'
      · subst h₂; simp [mapSet, mapGet?]
      · simp [mapSet, mapGet?, h₂]
    · by_cases h₂ : k₁ = k'
      · subst h₂
        have : k ≠ k₁ := fun h => h₁ h.symm
        simp [mapSet, mapGet?, h₁, this]
      · simp [mapSet, mapGet?, h₁, h₂, ih]

theorem mapGet?_delete {α : Type} (m : List (String × α)) (k k' : String) :
    mapGet? (mapDelete m k) k' = if k' = k then none else mapGet? m k' := by
  induction m with
  | nil => simp [mapDelete, mapGet?]
  | cons p rest ih =>
    obtain ⟨k₁, v₁⟩ := p
    by_cases h₁ : k₁ = k
    · subst h₁
      have : mapDelete ((k₁, v₁) :: rest) k₁ = mapDelete rest k₁ := by
        simp [mapDelete]
      rw [this, ih]
      by_cases h₂ : k' = k₁
      · simp [h₂]
      · have : k₁ ≠ k' := fun h => h₂ h.symm
        simp [mapGet?, h₂, this]
    · have hcons : mapDelete ((k₁, v₁) :: rest) k = (k₁, v₁) :: mapDelete rest k := by
        simp [mapDelete, h₁]
      rw [hcons]
      by_cases h₂ : k₁ = k'
      · subst h₂
        simp [mapGet?, h₁]
      · simp [mapGet?, h₂, ih]

theorem mem_of_mapGet? {α : Type} {m : List (String × α)} {k : String}
    {v : α} (h : mapGet? m k = some v) : (k, v) ∈ m := by
  induction m with
  | nil => simp [mapGet?] at h
  | cons p rest ih =>
    obtain ⟨k₁, v₁⟩ := p
    by_cases h₁ : k₁ = k
    · subst h₁
      simp [mapGet?] at h
      simp [h]
    · simp [mapGet?, h₁] at h
      exact List.mem_cons_of_mem _ (ih h)

theorem mem_mapDelete {α : Type} {m : List (String × α)} {k : String}
    {p : String × α} (h : p ∈ mapDelete m k) : p ∈ m ∧ p.1 ≠ k := by
  simpa [mapDelete] using List.mem_filter.mp h

theorem cleanupStep_mem {now : Int} {acc : Store} {p : String × Int}
    {q : String × Int} (h : q ∈ (cleanupStep now acc p).expiryDatabase) :
    q ∈ acc.expiryDatabase := by
  unfold cleanupStep at h
  split at h
  · exact (mem_mapDelete h).1
  · exact h

theorem foldl_cleanup_mem {now : Int} {l : List (String × Int)}
    {acc : Store} {q : String × Int}
    (h : q ∈ (l.foldl (cleanupStep now) acc).expiryDatabase) :
    q ∈ acc.expiryDatabase := by
  induction l generalizing acc with
  | nil => exact h
  | cons p rest ih => exact cleanupStep_mem (ih h)

theorem foldl_cleanup_keyAbsent {now : Int} {l : List (String × Int)}
    {acc : Store} {c : String}
    (h : ∀ e, (c, e) ∉ acc.expiryDatabase) :
    ∀ e, (c, e) ∉ (l.foldl (cleanupStep now) acc).expiryDatabase := by
  induction l generalizing acc with
  | nil => exact h
  | cons p rest ih =>
    exact ih (fun e he => h e (cleanupStep_mem he))

theorem foldl_cleanup_expiredGone {now : Int} {l : List (String × Int)}
    {acc : Store} {c : String} {e : Int}
    (hmem : (c, e) ∈ l) (hexp : now > e) :
    ∀ e₁, (c, e₁) ∉ (l.foldl (cleanupStep now) acc).expiryDatabase := by
  induction l generalizing acc with
  | nil => cases hmem
  | cons p rest ih =>
    rcases List.mem_cons.mp hmem with heq | htail
    · subst heq
      rw [List.foldl_cons]
      apply foldl_cleanup_keyAbsent
      intro e₁ h₁
      rw [show cleanupStep now acc (c, e) = storeDelete acc c from by
        simp [cleanupStep, hexp]] at h₁
      exact (mem_mapDelete h₁).2 rfl
    · exact ih htail

theorem foldl_cleanup_nochange {now : Int} {l : List (String × Int)}
    (acc : Store) (h : ∀ p ∈ l, ¬ now > p.2) :
    l.foldl (cleanupStep now) acc = acc := by
  induction l generalizing acc with
  | nil => rfl
  | cons p rest ih =>
    have hp : ¬ now > p.2 := h p (List.mem_cons_self p rest)
    have hstep : cleanupStep now acc p = acc := by simp [cleanupStep, hp]
    rw [List.foldl_cons, hstep]
    exact ih acc (fun q hq => h q (List.mem_cons_of_mem _ hq))

theorem cleanup_result_live (s : Store) (now : Int) :
    ∀ p ∈ (cleanupExpiredUrls s now).1.expiryDatabase, ¬ now > p.2 := by
  intro p hp hgt
  exact foldl_cleanup_expiredGone (c := p.1) (e := p.2)
    (by simpa using foldl_cleanup_mem hp) hgt p.2 (by simpa using hp)

theorem sameKeys_storeDelete (s : Store) (h : sameKeys s) (c : String) :
    sameKeys (storeDelete s c) := by
  intro x
  unfold sameKeys mapHas at h
  unfold storeDelete mapHas
  rw [mapGet?_delete, mapGet?_delete]
  by_cases hx : x = c
  · simp [hx]
  · simp only [if_neg hx]
    exact h x

theorem sameKeys_set₂ (s : Store) (h : sameKeys s) (c : String)
    (d : UrlData) (e : Int) :
    sameKeys ⟨mapSet s.urlDatabase c d, mapSet s.expiryDatabase c e⟩ := by
  intro x
  unfold mapHas
  rw [mapGet?_set, mapGet?_set]
  by_cases hx : c = x
  · simp [hx]
  · simp only [if_neg hx]
    exact h x

theorem sameKeys_setUrl (s : Store) (h : sameKeys s) (c : String)
    (d : UrlData) (hc : mapHas s.urlDatabase c = true) :
    sameKeys ⟨mapSet s.urlDatabase c d, s.expiryDatabase⟩ := by
  intro x
  unfold mapHas
  rw [mapGet?_set]
  by_cases hx : c = x
  · subst hx
    have hx₂ := h c
    unfold mapHas at hx₂ hc
    rw [if_pos rfl, ← hx₂, hc]
    rfl
  · simp only [if_neg hx]
    exact h x

theorem create_requested_eq (s : Store) (now validity : Int)
    (u c : String) (cands : List String) (hu₀ : u ≠ "")
    (hu : isValidUrl u = true) (hv : 0 < validity) (hc₀ : c ≠ "")
    (hc : isValidShortcode c = true) :
    create s now (some u) validity (some c) cands =
      if mapHas s.urlDatabase c then .err .codeConflict
      else createInsert s now u validity c := by
  unfold create
  simp [hu₀, hu, not_le.mpr hv, hc₀, hc]

theorem create_ok_sets (s : Store) (now : Int) (url : Option String)
    (v : Int) (rc : Option String) (cands : List String)
    (s' : Store) (code : String) (ex : Int)
    (h : create s now url v rc cands = .ok s' code ex) :
    s' = { urlDatabase := mapSet s.urlDatabase code
             { originalUrl := url.getD "", createdAt := now,
               accessCount := 0 },
           expiryDatabase := mapSet s.expiryDatabase code
             (now + v * 60 * 1000) } := by
  unfold create at h
  split at h
  · cases h
  split at h
  · cases h
  split at h
  · cases h
  split at h
  · split at h
    · cases h
    split at h
    · cases h
    · unfold createInsert at h
      obtain ⟨h₁, h₂, h₃⟩ := CreateResult.ok.inj h
      subst h₂
      exact h₁.symm
  · split at h
    · unfold createInsert at h
      obtain ⟨h₁, h₂, h₃⟩ := CreateResult.ok.inj h
      subst h₂
      exact h₁.symm
    · cases h

theorem resolve_live_step (s : Store) (t : Int) (c : String)
    (d : UrlData) (e : Int) (h₁ : ¬ (c = "shorturls" ∨ c = "health"))
    (hu : mapGet? s.urlDatabase c = some d)
    (he : mapGet? s.expiryDatabase c = some e) (ht : ¬ t > e) :
    resolve s t c =
      (⟨mapSet s.urlDatabase c { d with accessCount := d.accessCount + 1 },
          s.expiryDatabase⟩, .ok d.originalUrl) := by
  unfold resolve
  rw [if_neg h₁]
  simp only [hu]
  rw [if_neg (by simp [isExpired, he, ht])]

theorem resolveN_live (s : Store) (t : Int) (c : String) (d : UrlData)
    (e : Int) (h₁ : ¬ (c = "shorturls" ∨ c = "health"))
    (hu : mapGet? s.urlDatabase c = some d)
    (he : mapGet? s.expiryDatabase c = some e) (ht : ¬ t > e) :
    ∀ n, mapGet? (resolveN s t c n).urlDatabase c =
        some { d with accessCount := d.accessCount + n } ∧
      (resolveN s t c n).expiryDatabase = s.expiryDatabase := by
  intro n
  induction n with
  | zero =>
    constructor
    · simpa using hu
    · rfl
  | succ n ih =>
    obtain ⟨ihu, ihe⟩ := ih
    have he' : mapGet? (resolveN s t c n).expiryDatabase c = some e := by
      rw [ihe]; exact he
    have step := resolve_live_step (resolveN s t c n) t c
      ({ d with accessCount := d.accessCount + n }) e h₁ ihu he' ht
    have hN : resolveN s t c (n + 1) = (resolve (resolveN s t c n) t c).1 := rfl
    rw [hN, step]
    constructor
    · rw [mapGet?_set, if_pos rfl]
      rfl
    · exact ihe

theorem resolve_ok_shape (s : Store) (t : Int) (c u₂ : String)
    (h : (resolve s t c).2 = .ok u₂) :
    ∃ d, mapGet? s.urlDatabase c = some d ∧ u₂ = d.originalUrl ∧
      mapGet? (resolve s t c).1.urlDatabase c =
        some { d with accessCount := d.accessCount + 1 } := by
  by_cases h₁ : c = "shorturls" ∨ c = "health"
  · rw [show resolve s t c = (s, .error .routeNotFound) from by
      unfold resolve; rw [if_pos h₁]] at h
    cases h
  · rcases heq : mapGet? s.urlDatabase c with _ | d
    · rw [show resolve s t c = (s, .error .notFound) from by
        unfold resolve; rw [if_neg h₁]; simp only [heq]] at h
      cases h
    · by_cases hex : isExpired s t c
      · rw [show resolve s t c = (storeDelete s c, .error .expired) from by
          unfold resolve; rw [if_neg h₁]; simp only [heq]
          rw [if_pos hex]] at h
        cases h
      · have hr : resolve s t c =
            (⟨mapSet s.urlDatabase c
                { d with accessCount := d.accessCount + 1 },
              s.expiryDatabase⟩, .ok d.originalUrl) := by
          unfold resolve; rw [if_neg h₁]; simp only [heq]
          rw [if_neg hex]
        rw [hr] at h
        refine ⟨d, rfl, (Res.ok.inj h).symm, ?_⟩
        rw [hr, mapGet?_set, if_pos rfl]

theorem getStats_entry_mono (s : Store) (t : Int) (c c' : String)
    (d' : UrlData)
    (h : mapGet? ((getStats s t c).1).urlDatabase c' = some d') :
    mapGet? s.urlDatabase c' = some d' := by
  unfold getStats at h
  split at h
  · exact h
  · split at h
    · rw [show (storeDelete s c, (Res.error ApiError.expired : Res Stats)).1
          = storeDelete s c from rfl] at h
      unfold storeDelete at h
      rw [mapGet?_delete] at h
      split at h
      · cases h
      · exact h
    · exact h

theorem sameKeys_cleanup (s : Store) (h : sameKeys s) (now : Int) :
    sameKeys (cleanupExpiredUrls s now).1 := by
  unfold cleanupExpiredUrls
  generalize s.expiryDatabase = l
  induction l generalizing s with
  | nil => exact h
  | cons p rest ih =>
    rw [List.foldl_cons]
    apply ih
    unfold cleanupStep
    split
    · exact sameKeys_storeDelete s h p.1
    · exact h

theorem getStats_notFound (s : Store) (t : Int) (c : String)
    (hu : mapGet? s.urlDatabase c = none) :
    getStats s t c = (s, .error .notFound) := by
  unfold getStats
  simp only [hu]

theorem getStats_expired (s : Store) (t : Int) (c : String)
    (d : UrlData) (e : Int) (hu : mapGet? s.urlDatabase c = some d)
    (he : mapGet? s.expiryDatabase c = some e) (ht : t > e) :
    getStats s t c = (storeDelete s c, .error .expired) := by
  unfold getStats
  simp only [hu]
  rw [if_pos (by simp [isExpired, he, ht])]

theorem getStats_live (s : Store) (t : Int) (c : String) (d : UrlData)
    (e : Int) (hu : mapGet? s.urlDatabase c = some d)
    (he : mapGet? s.expiryDatabase c = some e) (ht : ¬ t > e) :
    getStats s t c =
      (s, .ok ⟨c, d.originalUrl, d.createdAt, some e, d.accessCount⟩) := by
  unfold getStats
  simp only [hu]
  rw [if_neg (by simp [isExpired, he, ht]), he]

theorem resolve_expired (s : Store) (t : Int) (c : String) (d : UrlData)
    (e : Int) (h₁ : ¬ (c = "shorturls" ∨ c = "health"))
    (hu : mapGet? s.urlDatabase c = some d)
    (he : mapGet? s.expiryDatabase c = some e) (ht : t > e) :
    resolve s t c = (storeDelete s c, .error .expired) := by
  unfold resolve
  rw [if_neg h₁]
  simp only [hu]
  rw [if_pos (by simp [isExpired, he, ht])]

theorem resolve_reserved (s : Store) (t : Int) (c : String)
    (hc : c = "shorturls" ∨ c = "health") :
    resolve s t c = (s, .error .routeNotFound) := by
  unfold resolve
  rw [if_pos hc]

/-- C1 (corrected): create with a valid requested code returns
CodeConflict exactly when any entry — live or expired alike — is bound
under that code in urlDatabase, and otherwise inserts the new entry; an
expired entry under the requested code is not treated as free, since
the 409 branch is guarded by urlDatabase.has alone. -/
theorem create_conflict_iff_code_bound (s : Store) (now v : Int)
    (u c : String) (cands : List String) (hu₀ : u ≠ "")
    (hu : isValidUrl u = true) (hv : 0 < v) (hc₀ : c ≠ "")
    (hc : isValidShortcode c = true) :
    (mapHas s.urlDatabase c = true →
      create s now (some u) v (some c) cands = .err .codeConflict) ∧
    (mapHas s.urlDatabase c = false →
      create s now (some u) v (some c) cands =
        createInsert s now u v c) := by
  rw [create_requested_eq s now v u c cands hu₀ hu hv hc₀ hc]
  constructor
  · intro h
    rw [if_pos h]
  · intro h
    rw [if_neg (by rw [h]; simp)]

/-- C1 witness: on a store with no binding for "abc", create with
requested code "abc" succeeds and inserts the entry. -/
theorem create_conflict_iff_code_bound_instance :
    create ⟨[], []⟩ 0 (some "http://example.com/a") 30 (some "abc") [] =
      createInsert ⟨[], []⟩ 0 "http://example.com/a" 30 "abc" :=
  (create_conflict_iff_code_bound ⟨[], []⟩ 0 30 "http://example.com/a"
    "abc" [] (by decide) (by decide) (by decide) (by decide)
    (by decide)).2 rfl

/-- C1 counterexample: the only entry under "abc" is expired at time
200 (its expiry is 100), yet create with requested code "abc" fails
with CodeConflict instead of succeeding. -/
theorem create_blocked_by_expired_entry :
    isExpired oneEntryStore 200 "abc" = true ∧
    oneEntryStore.urlDatabase =
      [("abc", ⟨"http://example.com/a", 0, 0⟩)] ∧
    create oneEntryStore 200 (some "http://example.com/b") 30
      (some "abc") [] = .err .codeConflict := by decide

/-- C2 (corrected): the cleanup sweep evicts exactly the expired
entries but produces no count — the source function has no return
statement, so its value is undefined (none); on a store with no
expired entry the sweep leaves the store unchanged, and an immediate
second sweep after any sweep leaves the store unchanged (evicts
nothing). -/
theorem cleanup_idempotent_no_expired (s : Store) (t : Int) :
    ((∀ p ∈ s.expiryDatabase, ¬ t > p.2) →
      (cleanupExpiredUrls s t).1 = s) ∧
    (cleanupExpiredUrls (cleanupExpiredUrls s t).1 t).1 =
      (cleanupExpiredUrls s t).1 ∧
    (cleanupExpiredUrls s t).2 = none := by
  refine ⟨fun h => foldl_cleanup_nochange s h,
    foldl_cleanup_nochange _ (cleanup_result_live s t), rfl⟩

/-- C2 witness: a store whose single entry is still live at time 50 is
untouched by the sweep. -/
theorem cleanup_idempotent_no_expired_instance :
    (cleanupExpiredUrls oneEntryStore 50).1 = oneEntryStore :=
  (cleanup_idempotent_no_expired oneEntryStore 50).1 (by decide)

/-- C2 counterexample: sweeping a store holding exactly one expired
entry evicts it (both maps become empty), yet the call's value is the
undefined of a return-less JavaScript function, not the eviction
count 1 the claim asserts. -/
theorem cleanup_returns_no_count :
    (cleanupExpiredUrls oneEntryStore 200).1 = ⟨[], []⟩ ∧
    (cleanupExpiredUrls oneEntryStore 200).2 = none ∧
    (cleanupExpiredUrls oneEntryStore 200).2 ≠ some 1 := by decide

/-- C3 (corrected): for every non-reserved code whose entry is past
its expiry at call time, getStats and resolve both fail with Expired
and, as a side effect, delete the entry from both maps before
returning, so a following getStats fails with NotFound; for the
reserved codes "shorturls" and "health" the resolve path instead
fails with its route-level 404 and evicts nothing. -/
theorem expired_entry_evicted_on_access (s : Store) (t : Int)
    (c : String) (d : UrlData) (e : Int)
    (h₁ : ¬ (c = "shorturls" ∨ c = "health"))
    (hu : mapGet? s.urlDatabase c = some d)
    (he : mapGet? s.expiryDatabase c = some e) (ht : t > e) :
    getStats s t c = (storeDelete s c, .error .expired) ∧
    resolve s t c = (storeDelete s c, .error .expired) ∧
    (getStats (storeDelete s c) t c).2 = .error .notFound := by
  refine ⟨getStats_expired s t c d e hu he ht,
    resolve_expired s t c d e h₁ hu he ht, ?_⟩
  have hnone : mapGet? (storeDelete s c).urlDatabase c = none := by
    unfold storeDelete
    rw [mapGet?_delete, if_pos rfl]
  rw [getStats_notFound _ t c hnone]

/-- C3 witness: the single entry of oneEntryStore is expired at time
200; both access paths evict it and answer Expired, and the follow-up
getStats answers NotFound. -/
theorem expired_entry_evicted_on_access_instance :
    getStats oneEntryStore 200 "abc" = (⟨[], []⟩, .error .expired) ∧
    resolve oneEntryStore 200 "abc" = (⟨[], []⟩, .error .expired) ∧
    (getStats (⟨[], []⟩ : Store) 200 "abc").2 = .error .notFound :=
  expired_entry_evicted_on_access oneEntryStore 200 "abc"
    ⟨"http://example.com/a", 0, 0⟩ 100 (by decide) (by decide)
    (by decide) (by decide)

/-- C3 counterexample: an expired entry under the reserved code
"shorturls" (such an entry is creatable, see C10) makes resolve answer
the route-level 404 branch, not Expired, and evict nothing. -/
theorem expired_reserved_entry_not_evicted_by_resolve :
    isExpired reservedStore 200 "shorturls" = true ∧
    resolve reservedStore 200 "shorturls" =
      (reservedStore, .error .routeNotFound) := by decide

/-- C4 (confirmed): a successful resolve returns the stored
originalUrl verbatim and bumps exactly that entry's accessCount by
one; and starting from a fresh live entry (accessCount 0), n
sequential resolves make a subsequent getStats report
accessCount = n. -/
theorem resolve_increments_accessCount :
    (∀ (s : Store) (t : Int) (c u₂ : String),
      (resolve s t c).2 = .ok u₂ →
      ∃ d, mapGet? s.urlDatabase c = some d ∧ u₂ = d.originalUrl ∧
        mapGet? (resolve s t c).1.urlDatabase c =
          some { d with accessCount := d.accessCount + 1 }) ∧
    (∀ (s : Store) (t : Int) (c : String) (d : UrlData) (e : Int)
      (n : Nat), ¬ (c = "shorturls" ∨ c = "health") →
      mapGet? s.urlDatabase c = some d → d.accessCount = 0 →
      mapGet? s.expiryDatabase c = some e → ¬ t > e →
      (getStats (resolveN s t c n) t c).2 =
        .ok ⟨c, d.originalUrl, d.createdAt, some e, n⟩) := by
  constructor
  · exact fun s t c u₂ h => resolve_ok_shape s t c u₂ h
  · intro s t c d e n h₁ hu h₀ he ht
    obtain ⟨hun, hen⟩ := resolveN_live s t c d e h₁ hu he ht n
    have hen' : mapGet? (resolveN s t c n).expiryDatabase c = some e := by
      rw [hen]
      exact he
    rw [getStats_live (resolveN s t c n) t c _ e hun hen' ht]
    simp [h₀]

/-- C4 witness: three sequential resolves of the live entry "abc"
leave accessCount 3 in the following getStats. -/
theorem resolve_increments_accessCount_instance :
    (getStats (resolveN oneEntryStore 50 "abc" 3) 50 "abc").2 =
      .ok ⟨"abc", "http://example.com/a", 0, some 100, 3⟩ :=
  resolve_increments_accessCount.2 oneEntryStore 50 "abc"
    ⟨"http://example.com/a", 0, 0⟩ 100 3 (by decide) (by decide) rfl
    (by decide) (by decide)

/-- C6 (corrected): an entry is classified expired iff the current
time is strictly greater than its stored expiry; while t ≤ expiresAt
the entry is returned by the stats lookup, and by resolution provided
its code is not a reserved route name; once t > expiresAt neither path
ever returns it. -/
theorem expiry_boundary_strict (s : Store) (t : Int) (c : String)
    (d : UrlData) (e : Int) (hu : mapGet? s.urlDatabase c = some d)
    (he : mapGet? s.expiryDatabase c = some e) :
    (isExpired s t c = true ↔ t > e) ∧
    (t ≤ e →
      (getStats s t c).2 =
        .ok ⟨c, d.originalUrl, d.createdAt, some e, d.accessCount⟩ ∧
      (¬ (c = "shorturls" ∨ c = "health") →
        (resolve s t c).2 = .ok d.originalUrl)) ∧
    (t > e → (∀ st, (getStats s t c).2 ≠ .ok st) ∧
      (∀ u, (resolve s t c).2 ≠ .ok u)) := by
  refine ⟨by simp [isExpired, he], fun hle => ?_, fun hgt => ?_⟩
  · have ht : ¬ t > e := not_lt.mpr hle
    constructor
    · rw [getStats_live s t c d e hu he ht]
    · intro h₁
      rw [resolve_live_step s t c d e h₁ hu he ht]
  · constructor
    · intro st
      rw [getStats_expired s t c d e hu he hgt]
      simp
    · intro u
      by_cases h₁ : c = "shorturls" ∨ c = "health"
      · rw [resolve_reserved s t c h₁]
        simp
      · rw [resolve_expired s t c d e h₁ hu he hgt]
        simp

/-- C6 witness: at time 50 ≤ 100 the entry "abc" is live and the stats
lookup returns its snapshot. -/
theorem expiry_boundary_strict_instance :
    (getStats oneEntryStore 50 "abc").2 =
      .ok ⟨"abc", "http://example.com/a", 0, some 100, 0⟩ :=
  ((expiry_boundary_strict oneEntryStore 50 "abc"
    ⟨"http://example.com/a", 0, 0⟩ 100 (by decide) (by decide)).2.1
    (by decide)).1

/-- C6 counterexample: the entry under the reserved code "health" is
live at time 50 (not expired, 50 ≤ 100), yet resolution does not
return it: the route-level 404 answers instead. -/
theorem live_reserved_entry_not_resolvable :
    isExpired healthStore 50 "health" = false ∧
    resolve healthStore 50 "health" =
      (healthStore, .error .routeNotFound) := by decide

/-- C7 (confirmed): getStats never changes accessCount — every entry
still bound after a call, successful or failing, carries exactly the
record (accessCount included) it carried before, and the same holds
across a repeated call. -/
theorem getStats_preserves_accessCount (s : Store) (t : Int)
    (c : String) :
    (∀ c₁ d₁, mapGet? ((getStats s t c).1).urlDatabase c₁ = some d₁ →
      mapGet? s.urlDatabase c₁ = some d₁) ∧
    (∀ c₁ d₁,
      mapGet? ((getStats (getStats s t c).1 t c).1).urlDatabase c₁ =
        some d₁ → mapGet? s.urlDatabase c₁ = some d₁) := by
  refine ⟨fun c₁ d₁ h => getStats_entry_mono s t c c₁ d₁ h,
    fun c₁ d₁ h => ?_⟩
  exact getStats_entry_mono s t c c₁ d₁
    (getStats_entry_mono _ t c c₁ d₁ h)

/-- C7 witness: after a successful getStats on "abc" the entry still
carries accessCount 0. -/
theorem getStats_preserves_accessCount_instance :
    mapGet? oneEntryStore.urlDatabase "abc" =
      some ⟨"http://example.com/a", 0, 0⟩ :=
  (getStats_preserves_accessCount oneEntryStore 50 "abc").1 "abc"
    ⟨"http://example.com/a", 0, 0⟩ (by decide)

/-- C8 (confirmed): with the default length 6, every code the
generator can produce is exactly 6 characters, all drawn from the
62-character alphanumeric alphabet, and passes isValidShortcode. -/
theorem generateShortcode_default_valid (r : Nat → Fin 62) :
    (generateShortcode r).length = 6 ∧
    (generateShortcode r).data.all isAlphanumChar = true ∧
    isValidShortcode (generateShortcode r) = true := by
  have hdata : (generateShortcode r).data =
      (List.range 6).map (fun i => chars.getD (r i).val 'A') := rfl
  have hall : ∀ k : Fin 62, isAlphanumChar (chars.getD k.val 'A') = true := by
    decide
  have hlen : (generateShortcode r).length = 6 := by
    simp [generateShortcode, String.length]
  have hvalid : (generateShortcode r).data.all isAlphanumChar = true := by
    rw [hdata, List.all_eq_true]
    intro x hx
    rw [List.mem_map] at hx
    obtain ⟨i, _, rfl⟩ := hx
    exact hall (r i)
  refine ⟨hlen, hvalid, ?_⟩
  unfold isValidShortcode
  rw [hlen, hvalid]
  simp

/-- C9 (confirmed): every operation preserves the invariant that
urlDatabase and expiryDatabase bind exactly the same codes: create
inserts into both, the eviction paths of getStats and resolve delete
from both, resolve's success path rewrites an existing binding, and
the sweep deletes from both. -/
theorem operations_preserve_sameKeys (s : Store) (h : sameKeys s)
    (t : Int) (url : Option String) (v : Int) (rc : Option String)
    (cands : List String) (c : String) :
    (∀ s₁ code ex, create s t url v rc cands = .ok s₁ code ex →
      sameKeys s₁) ∧
    sameKeys (getStats s t c).1 ∧ sameKeys (resolve s t c).1 ∧
    sameKeys (cleanupExpiredUrls s t).1 := by
  refine ⟨?_, ?_, ?_, sameKeys_cleanup s h t⟩
  · intro s₁ code ex hok
    rw [create_ok_sets s t url v rc cands s₁ code ex hok]
    exact sameKeys_set₂ s h code _ _
  · unfold getStats
    split
    · exact h
    · split
      · exact sameKeys_storeDelete s h c
      · exact h
  · unfold resolve
    split
    · exact h
    · split
      · exact h
      · next d heq =>
        split
        · exact sameKeys_storeDelete s h c
        · exact sameKeys_setUrl s h c _ (by unfold mapHas; rw [heq]; rfl)

/-- C9 witness: from the empty store (trivially balanced), the sweep,
both lookups and a successful create keep the two maps on the same
key set; shown here on the sweep conjunct. -/
theorem operations_preserve_sameKeys_instance :
    sameKeys (cleanupExpiredUrls ⟨[], []⟩ 0).1 :=
  (operations_preserve_sameKeys ⟨[], []⟩ (fun _ => rfl) 0
    (some "http://example.com/a") 30 none [] "abc").2.2.2

/-- C10 (confirmed): "shorturls" and "health" pass format validation,
so create inserts a live entry under them when the code is free, yet
the resolution handler rejects both unconditionally with its 404
route-not-found branch — the same HTTP status as NotFound — leaving
the store untouched, so such an entry can never be resolved nor have
its accessCount incremented via resolution. -/
theorem reserved_codes_creatable_not_resolvable (s : Store) (t : Int)
    (c : String) (hc : c = "shorturls" ∨ c = "health") (u : String)
    (hu₀ : u ≠ "") (hu : isValidUrl u = true) (v : Int) (hv : 0 < v)
    (hfree : mapGet? s.urlDatabase c = none) :
    isValidShortcode c = true ∧
    create s t (some u) v (some c) [] =
      .ok ⟨mapSet s.urlDatabase c ⟨u, t, 0⟩,
        mapSet s.expiryDatabase c (t + v * 60 * 1000)⟩ c
        (t + v * 60 * 1000) ∧
    (∀ (s₂ : Store) (t₂ : Int),
      resolve s₂ t₂ c = (s₂, .error .routeNotFound)) ∧
    httpStatus .routeNotFound = httpStatus .notFound := by
  have hc₀ : c ≠ "" := by
    rcases hc with h | h <;> subst h <;> decide
  have hcv : isValidShortcode c = true := by
    rcases hc with h | h <;> subst h <;> decide
  refine ⟨hcv, ?_, fun s₂ t₂ => resolve_reserved s₂ t₂ c hc, rfl⟩
  rw [create_requested_eq s t v u c [] hu₀ hu hv hc₀ hcv]
  rw [if_neg (by unfold mapHas; rw [hfree]; simp)]
  rfl

/-- C10 witness: create inserts a live entry under "shorturls" in the
empty store, and resolving "shorturls" against the resulting store
still answers the route-level 404. -/
theorem reserved_codes_creatable_not_resolvable_instance :
    isValidShortcode "shorturls" = true ∧
    create ⟨[], []⟩ 0 (some "http://example.com/a") 30
      (some "shorturls") [] =
      .ok ⟨[("shorturls", ⟨"http://example.com/a", 0, 0⟩)],
        [("shorturls", 1800000)]⟩ "shorturls" 1800000 ∧
    resolve ⟨[("shorturls", ⟨"http://example.com/a", 0, 0⟩)],
      [("shorturls", 1800000)]⟩ 5 "shorturls" =
      (⟨[("shorturls", ⟨"http://example.com/a", 0, 0⟩)],
        [("shorturls", 1800000)]⟩, .error .routeNotFound) := by
  have h := reserved_codes_creatable_not_resolvable ⟨[], []⟩ 0
    "shorturls" (Or.inl rfl) "http://example.com/a" (by decide)
    (by decide) 30 (by decide) rfl
  exact ⟨h.1, h.2.1, h.2.2.1 _ 5⟩

end UrlShortener
